import Mathlib

/-!
Shallow embedding of the `dino` dependency-injection core
(`registry.go`, `injector.go`, `helper.go`) in Lean 4.

Go's `reflect.Type` is modelled by the inductive `Ty`: a type descriptor
classifying each first-class type shape the code dispatches on
(struct/aggregate, function/callable, pointer, slice, map, channel, scalar,
and the `error` interface).  Function and struct types are structural, as in
Go: a function type carries its parameter and output type lists, a struct
type carries its field list (field name, `inject` tag, exported flag, type).

Go's `reflect.Value` is modelled by the inductive `Value`: each value carries
its own dynamic type information.  Nil-ness of pointers, slices, maps,
channels, functions and error interfaces is explicit (`Option` payloads), and
struct values carry an addressability flag mirroring `reflect.Value.CanSet`
(values built by `reflect.Zero` are not addressable; a struct reached through
a pointer is).

A function value's behaviour (Go `reflect.Value.Call`) is modelled by
`FuncBody`: either a constant output list (the shape of every provider the
spec's properties quantify over — the provider ignores its arguments and
returns fixed outputs) or the stub synthesized by `Create` for function
types, which creates each declared output type on invocation.
-/

namespace Dino

/-!
Type descriptors (Go `reflect.Type`), mutually with inline lists of
types (`Tys`, for function parameter/output lists) and of struct fields
(`Fields`: field name, `inject` tag, exported flag, field type).
-/

mutual

inductive Ty : Type where
  | scalar (name : String) : Ty
  | strct (name : String) (fields : Fields) : Ty
  | ptr (elem : Ty) : Ty
  | slice (elem : Ty) : Ty
  | mp (key val : Ty) : Ty
  | chan (elem : Ty) : Ty
  | func (params : Tys) (outs : Tys) : Ty
  | err : Ty

inductive Tys : Type where
  | nil : Tys
  | cons (t : Ty) (rest : Tys) : Tys

inductive Fields : Type where
  | nil : Fields
  | cons (fname ftag : String) (fexp : Bool) (fty : Ty) (rest : Fields) : Fields

end

mutual

def Ty.decEq : (a b : Ty) → Decidable (a = b)
  | a, b => by
    cases a <;> cases b
    all_goals try exact isFalse fun h => Ty.noConfusion h
    case scalar.scalar s t =>
      exact decidable_of_iff (s = t) (by simp)
    case strct.strct n f n' f' =>
      haveI := Fields.decEq f f'
      exact decidable_of_iff (n = n' ∧ f = f') (by simp)
    case ptr.ptr s t =>
      haveI := Ty.decEq s t
      exact decidable_of_iff (s = t) (by simp)
    case slice.slice s t =>
      haveI := Ty.decEq s t
      exact decidable_of_iff (s = t) (by simp)
    case mp.mp k v k' v' =>
      haveI := Ty.decEq k k'
      haveI := Ty.decEq v v'
      exact decidable_of_iff (k = k' ∧ v = v') (by simp)
    case chan.chan s t =>
      haveI := Ty.decEq s t
      exact decidable_of_iff (s = t) (by simp)
    case func.func p o p' o' =>
      haveI := Tys.decEq p p'
      haveI := Tys.decEq o o'
      exact decidable_of_iff (p = p' ∧ o = o') (by simp)
    case err.err => exact isTrue rfl

def Tys.decEq : (a b : Tys) → Decidable (a = b)
  | a, b => by
    cases a <;> cases b
    case nil.nil => exact isTrue rfl
    case nil.cons t r => exact isFalse fun h => Tys.noConfusion h
    case cons.nil t r => exact isFalse fun h => Tys.noConfusion h
    case cons.cons t r t' r' =>
      haveI := Ty.decEq t t'
      haveI := Tys.decEq r r'
      exact decidable_of_iff (t = t' ∧ r = r') (by simp)

def Fields.decEq : (a b : Fields) → Decidable (a = b)
  | a, b => by
    cases a <;> cases b
    case nil.nil => exact isTrue rfl
    case nil.cons _ _ _ _ _ => exact isFalse fun h => Fields.noConfusion h
    case cons.nil _ _ _ _ _ => exact isFalse fun h => Fields.noConfusion h
    case cons.cons n g e t r n' g' e' t' r' =>
      haveI := Ty.decEq t t'
      haveI := Fields.decEq r r'
      exact decidable_of_iff (n = n' ∧ g = g' ∧ e = e' ∧ t = t' ∧ r = r')
        (by simp)

end

instance : DecidableEq Ty := Ty.decEq
instance : DecidableEq Tys := Tys.decEq
instance : DecidableEq Fields := Fields.decEq

/-- Length of an inline type list. -/
def Tys.length : Tys → Nat
  | .nil => 0
  | .cons _ rest => 1 + rest.length

/-!
Runtime values (Go `reflect.Value`).  Each value carries its dynamic type.
`Value.invalid` is the invalid zero `reflect.Value{}`.  For reference-like
kinds (pointer, slice, map, chan, func, and the `error` interface) the
payload is an `Option`: `none` is Go `nil`.  A slice payload records its
element list and capacity, a channel payload its buffer size.  `structV`
carries an addressability flag (`reflect.Value.CanSet` requires the value be
addressable: values built by `reflect.Zero`/`reflect.ValueOf` are not, a
struct reached by dereferencing a pointer is).  A function value's payload
`FuncBody` gives the semantics of `reflect.Value.Call`: `consts outs`
returns the fixed list `outs` ignoring the arguments (the shape of the
providers quantified over here), `createStub` is the function synthesized by
`Injector.Create`, which creates a default of each declared output type.
-/

mutual

inductive Value : Type where
  | invalid : Value
  | scalarV (name : String) (payload : Nat) : Value
  | structV (addr : Bool) (name : String) (fields : Fields)
      (vals : List Value) : Value
  | ptrV (elem : Ty) (pointee : Option Value) : Value
  | sliceV (elem : Ty) (contents : Option (List Value × Nat)) : Value
  | mapV (key val : Ty) (contents : Option (List (Value × Value))) : Value
  | chanV (elem : Ty) (buffer : Option Nat) : Value
  | funcV (params outs : Tys) (body : Option FuncBody) : Value
  | errV (msg : Option String) : Value

inductive FuncBody : Type where
  | consts (outs : List Value) : FuncBody
  | createStub : FuncBody

end

/-- Go `reflect.Value.Type()`: the dynamic type of a value.  `Type()` on the
invalid `reflect.Value{}` panics in Go; that case is unreachable in the
embedded code (the registry rejects invalid values), and is mapped to a
distinguished scalar descriptor. -/
def Value.ty : Value → Ty
  | .invalid => .scalar "<invalid>"
  | .scalarV name _ => .scalar name
  | .structV _ name fields _ => .strct name fields
  | .ptrV elem _ => .ptr elem
  | .sliceV elem _ => .slice elem
  | .mapV k v _ => .mp k v
  | .chanV elem _ => .chan elem
  | .funcV params outs _ => .func params outs
  | .errV _ => .err

/-- Go `reflect.Value.IsValid()`. -/
def Value.isValid : Value → Bool
  | .invalid => false
  | _ => true

/-- `helper.go` `isStruct`: the type's kind is Struct. -/
def isStruct (rt : Ty) : Bool :=
  match rt with
  | .strct _ _ => true
  | _ => false

/-- `helper.go` `isPointerToStruct`: a pointer whose element type is a
struct. -/
def isPointerToStruct (rt : Ty) : Bool :=
  match rt with
  | .ptr elem => isStruct elem
  | _ => false

/-- `helper.go` `isFunction`: the type's kind is Func. -/
def isFunction (rt : Ty) : Bool :=
  match rt with
  | .func _ _ => true
  | _ => false

/-- `helper.go` `isNil`: invalid values count as nil; pointer, interface,
slice, map, chan and func kinds report `IsNil()`; every other kind is not
nil. -/
def isNil (rv : Value) : Bool :=
  match rv with
  | .invalid => true
  | .ptrV _ pointee => pointee.isNone
  | .sliceV _ contents => contents.isNone
  | .mapV _ _ contents => contents.isNone
  | .chanV _ buffer => buffer.isNone
  | .funcV _ _ body => body.isNone
  | .errV msg => msg.isNone
  | _ => false

/-- `helper.go` `asError`: extracts an error from a value if it implements
the `error` interface and is non-nil; otherwise reports no error.  In this
embedding the `error` interface is inhabited exactly by `errV` values, and
every value is interfaceable (`CanInterface` holds for all provider
outputs). -/
def asError (rv : Value) : Option String :=
  if isNil rv then none
  else match rv with
    | .errV (some msg) => some msg
    | _ => none

/-!
Go `reflect.Zero`: the zero value of a type.  A zero struct has every field
at its own zero value (and is not addressable); zeros of reference-like
kinds are nil.
-/

mutual

def zeroValue : Ty → Value
  | .scalar name => .scalarV name 0
  | .strct name fields => .structV false name fields (zeroFields fields)
  | .ptr elem => .ptrV elem none
  | .slice elem => .sliceV elem none
  | .mp k v => .mapV k v none
  | .chan elem => .chanV elem none
  | .func params outs => .funcV params outs none
  | .err => .errV none

def zeroFields : Fields → List Value
  | .nil => []
  | .cons _ _ _ fty rest => zeroValue fty :: zeroFields rest

end

/-- `injector.go` `Injector.Create`: a new instance of the given type.
Slices become empty zero-capacity slices (`reflect.MakeSlice(rt, 0, 0)`),
maps empty maps (`reflect.MakeMap`), channels fresh unbuffered channels
(`reflect.MakeChan(rt, 0)`), pointers freshly allocated zero referents
(`reflect.New(rt.Elem())`), functions a `reflect.MakeFunc` stub that
recursively creates each declared return type, and everything else the
type's zero value (`reflect.Zero`).  `Create` reads no injector state. -/
def create (rt : Ty) : Value :=
  match rt with
  | .slice elem => .sliceV elem (some ([], 0))
  | .mp k v => .mapV k v (some [])
  | .chan elem => .chanV elem (some 0)
  | .ptr elem => .ptrV elem (some (zeroValue elem))
  | .func params outs => .funcV params outs (some .createStub)
  | _ => zeroValue rt

/-- Creates one value per declared output type, in order: the body of the
`reflect.MakeFunc` closure inside `Injector.Create`. -/
def createOuts : Tys → List Value
  | .nil => []
  | .cons t rest => create t :: createOuts rest

/-- Go `rv.Call(args)` for the function bodies occurring here.  A `consts`
provider ignores its arguments and returns its fixed outputs; the
`createStub` body built by `Create` returns a created default per declared
output type. -/
def callFunc (body : FuncBody) (outs : Tys) : List Value :=
  match body with
  | .consts vals => vals
  | .createStub => createOuts outs

/-!
Error model.  Go sentinel errors (`errors.New` package-level variables) are
the `BaseErr` cases; `userError` is an error value returned by a
user-supplied provider; `outOfFuel` is an artifact of the embedding marking
recursion-depth exhaustion (it matches no Go sentinel).  `fmt.Errorf("...:
%w", err)` wrapping is a `Wrap` context pushed onto the error; `errors.Is`
compares the base sentinel, which wrapping preserves.
-/

inductive BaseErr : Type where
  | keyTypeNil : BaseErr
  | valueNotFound : BaseErr
  | invalidValue : BaseErr
  | circularDependency : BaseErr
  | expectedStruct : BaseErr
  | expectedFunction : BaseErr
  | userError (msg : String) : BaseErr
  | outOfFuel : BaseErr
  | panicked : BaseErr
  deriving DecidableEq, Repr

/-- The positional context recorded by each `fmt.Errorf` wrap site in
`registry.go`/`injector.go`, keyed by the source format string. -/
inductive Wrap : Type where
  /-- `Resolve`: "resolve type %s with tag '%s': %w". -/
  | resolveKey (ty : Option Ty) (tag : String) : Wrap
  /-- `Resolve`: "%w: type %s with tag '%s'" around `ErrCircularDependency`. -/
  | circularAt (ty : Option Ty) (tag : String) : Wrap
  /-- `Resolve`: "prepare factory function arguments of type %s with tag '%s': %w". -/
  | prepareFactoryArgs (ty : Option Ty) (tag : String) : Wrap
  /-- `Resolve`: "factory function for type %s with tag '%s' returned error: %w". -/
  | factoryReturnedError (ty : Option Ty) (tag : String) : Wrap
  /-- `Resolve`: "bind factory function return value of type %s with tag '%s': %w". -/
  | bindFactoryReturn (ty : Ty) (tag : String) : Wrap
  /-- `Bind`: "bind value to registry: %w". -/
  | bindValue : Wrap
  /-- `Inject`: "resolve field %s: %w". -/
  | resolveField (name : String) : Wrap
  /-- `Inject`: "inject field %s: %w". -/
  | injectField (name : String) : Wrap
  /-- `Inject`/`Prepare`: "%w: got %s" around `ErrExpectedStruct` or
  `ErrExpectedFunction`. -/
  | kindGot (kind : String) : Wrap
  /-- `Prepare`: "resolve argument of type %s: %w". -/
  | resolveArgument (ty : Ty) : Wrap
  /-- `Prepare`: "inject argument of type %s: %w". -/
  | injectArgument (ty : Ty) : Wrap
  deriving DecidableEq

/-- A Go error value as propagated by the embedded code: a base sentinel (or
user error) together with the stack of `fmt.Errorf` wraps applied to it,
outermost first. -/
structure DinoErr : Type where
  base : BaseErr
  ctx : List Wrap
  deriving DecidableEq

/-- A bare sentinel error, unwrapped. -/
def DinoErr.ofBase (b : BaseErr) : DinoErr := ⟨b, []⟩

/-- `fmt.Errorf("<context>: %w", e)`: push one wrap context. -/
def DinoErr.wrap (w : Wrap) (e : DinoErr) : DinoErr := ⟨e.base, w :: e.ctx⟩

/-- Go `errors.Is(err, sentinel)` for the sentinels used by this code:
wrapping preserves the base, so the check is base equality. -/
def DinoErr.is (e : DinoErr) (b : BaseErr) : Bool := e.base = b

/-!
Registry (`registry.go`, `SyncMapRegistry`).  `RegistryKey` is the `(tag,
type)` pair; its type component is `Option Ty` because a Go `reflect.Type`
field can be nil.  The `sync.Map` is modelled as an association list where
`Store` prepends and lookup takes the first match, so the newest entry for a
key wins (last write wins).
-/

structure RegistryKey : Type where
  tag : String
  ty : Option Ty
  deriving DecidableEq

/-- The registry store contents. -/
abbrev RegMap := List (RegistryKey × Value)

/-- First-match lookup (Go `sync.Map.Load` on the model store). -/
def RegMap.load (m : RegMap) (key : RegistryKey) : Option Value :=
  match m with
  | [] => none
  | (k, v) :: rest => if k = key then some v else RegMap.load rest key

/-- `SyncMapRegistry.Register`: reject a nil key type (`ErrKeyTypeNil`) and
an invalid value (`ErrInvalidValue`); otherwise store, overwriting any
existing entry for that exact key. -/
def registryRegister (m : RegMap) (key : RegistryKey) (rv : Value) :
    Except DinoErr RegMap :=
  if key.ty = none then .error (.ofBase .keyTypeNil)
  else if !rv.isValid then .error (.ofBase .invalidValue)
  else .ok ((key, rv) :: m)

/-- `SyncMapRegistry.Find`: reject a nil key type (`ErrKeyTypeNil`); report
`ErrValueNotFound` on a missing entry (alongside the zero value, which the
Go callers discard); otherwise return the stored value.  The defensive
`ErrInvalidValue` branch for a corrupt stored entry is unreachable here
because the model store holds `Value`s by construction. -/
def registryFind (m : RegMap) (key : RegistryKey) : Except DinoErr Value :=
  if key.ty = none then .error (.ofBase .keyTypeNil)
  else match m.load key with
    | none => .error (.ofBase .valueNotFound)
    | some rv => .ok rv

/-- The Go kind name reported in "%w: got %s" messages
(`reflect.Kind.String()`). -/
def kindName : Ty → String
  | .scalar name => name
  | .strct _ _ => "struct"
  | .ptr _ => "ptr"
  | .slice _ => "slice"
  | .mp _ _ => "map"
  | .chan _ => "chan"
  | .func _ _ => "func"
  | .err => "interface"

/-- Go `reflect.Zero(key.Type)`, the initial `resVal` in `Resolve`; `Find`
has already rejected a nil key type when this is computed. -/
def zeroOfKey (key : RegistryKey) : Value :=
  match key.ty with
  | some kt => zeroValue kt
  | none => .invalid

/-!
Injector state (`injector.go` `Injector`): the registry handle and the
in-flight key set `stack` (Go `map[RegistryKey]struct{}`, modelled as a
duplicate-free list: membership before insertion is always checked).
`calls` is ghost instrumentation counting provider invocations
(`rv.Call` sites inside `Resolve`); the Go code has no such field and
never reads it.
-/

structure Inj : Type where
  reg : RegMap
  stack : List RegistryKey
  calls : Nat

/-- `Injector.Bind` over its tag list: defaulting to the single empty tag,
then registering the value under `{tag, rt}` for each tag, wrapping a
registration failure as "bind value to registry". -/
def bindLoop (m : RegMap) (rt : Ty) (rv : Value) :
    List String → Except DinoErr RegMap
  | [] => .ok m
  | tag :: rest =>
    match registryRegister m ⟨tag, some rt⟩ rv with
    | .error e => .error (e.wrap .bindValue)
    | .ok m' => bindLoop m' rt rv rest

/-- `injector.go` `Injector.Bind`: an empty tag list means the single empty
tag. -/
def bind (m : RegMap) (rt : Ty) (rv : Value) (tags : List String) :
    Except DinoErr RegMap :=
  bindLoop m rt rv (if tags.isEmpty then [""] else tags)

/-- Go `rv.Call(args)` on a function value: run its body (both body forms
here ignore the argument list).  Calling a nil function panics in Go; no
embedded call site reaches one (`Resolve` calls a found non-nil factory,
`Invoke` is given a function), so that case returns no outputs. -/
def callValue (rv : Value) (args : List Value) : List Value :=
  match rv, args with
  | .funcV _ outs (some body), _ => callFunc body outs
  | _, _ => []

/-- The output loop of `Injector.Resolve`'s factory branch over the values
returned by the factory call: an error-shaped non-nil output fails the
resolution ("factory function ... returned error"), nil outputs are
skipped, every other output is bound back into the registry under the
triggering key's tag and the output's own type ("bind factory function
return value" on failure), and an output whose type equals the requested
type becomes the result.  The accumulated registry is returned on every
path: writes made before a failing output persist (Go writes through the
shared registry as it loops, and does not roll back). -/
def processOutputs (m : RegMap) (key : RegistryKey) (resVal : Value) :
    List Value → Except DinoErr Value × RegMap
  | [] => (.ok resVal, m)
  | val :: rest =>
    match asError val with
    | some msg =>
      (.error (DinoErr.wrap (.factoryReturnedError key.ty key.tag)
        (.ofBase (.userError msg))), m)
    | none =>
      if isNil val then processOutputs m key resVal rest
      else
        match bind m val.ty val [key.tag] with
        | .error e => (.error (e.wrap (.bindFactoryReturn val.ty key.tag)), m)
        | .ok m' =>
          let resVal' := if some val.ty = key.ty then val else resVal
          processOutputs m' key resVal' rest

/-!
The mutually recursive resolution algorithm (`injector.go`): `resolve`
(`Injector.Resolve`), `prepare` (`Injector.Prepare`, split into the
callable check and the parameter loop `prepareArgs`), and `inject`
(`Injector.Inject`, with its field loop `injectFields`).  Go's general
recursion is embedded with an explicit fuel argument; exhausting it yields
the embedding-only `outOfFuel` error.  `inject` and `injectFields` return
the (possibly partially) updated target value alongside the optional
error, mirroring Go's in-place mutation through `reflect`: on an abort the
fields already set keep their new values and the rest keep their old ones.
-/

mutual

def resolve : Nat → Inj → RegistryKey → Except DinoErr Value × Inj
  | 0, s, _ => (.error (.ofBase .outOfFuel), s)
  | fuel + 1, s, key =>
    match registryFind s.reg key with
    | .error e => (.error (e.wrap (.resolveKey key.ty key.tag)), s)
    | .ok rv =>
      if key ∈ s.stack then
        (.error ⟨.circularDependency, [.circularAt key.ty key.tag]⟩, s)
      else
        let s1 : Inj := { s with stack := key :: s.stack }
        let rt := rv.ty
        if isFunction rt ∧ some rt ≠ key.ty then
          match prepare fuel s1 rt with
          | (.error e, s2) =>
            (.error (e.wrap (.prepareFactoryArgs key.ty key.tag)),
              { s2 with stack := s2.stack.erase key })
          | (.ok args, s2) =>
            let values := callValue rv args
            let s3 : Inj := { s2 with calls := s2.calls + 1 }
            match processOutputs s3.reg key (zeroOfKey key) values with
            | (.error e, m') =>
              (.error e, { s3 with reg := m', stack := s3.stack.erase key })
            | (.ok resVal, m') =>
              (.ok resVal,
                { s3 with reg := m', stack := s3.stack.erase key })
        else
          (.ok rv, { s1 with stack := s1.stack.erase key })

def prepare : Nat → Inj → Ty → Except DinoErr (List Value) × Inj
  | 0, s, _ => (.error (.ofBase .outOfFuel), s)
  | fuel + 1, s, fn =>
    match fn with
    | .func params _ => prepareArgs fuel s params
    | _ => (.error ⟨.expectedFunction, [.kindGot (kindName fn)]⟩, s)

def prepareArgs : Nat → Inj → Tys → Except DinoErr (List Value) × Inj
  | 0, s, _ => (.error (.ofBase .outOfFuel), s)
  | _ + 1, s, .nil => (.ok [], s)
  | fuel + 1, s, .cons rt rest =>
    match resolve fuel s ⟨"", some rt⟩ with
    | (.ok rv, s1) =>
      match prepareArgs (fuel + 1) s1 rest with
      | (.ok args, s2) => (.ok (rv :: args), s2)
      | (.error e, s2) => (.error e, s2)
    | (.error e, s1) =>
      if !(e.is .valueNotFound) then
        (.error (e.wrap (.resolveArgument rt)), s1)
      else
        let rv := create rt
        match inject fuel s1 rv with
        | (some e2, rv', s2) =>
          if !(e2.is .expectedStruct) then
            (.error (e2.wrap (.injectArgument rt)), s2)
          else
            match prepareArgs (fuel + 1) s2 rest with
            | (.ok args, s3) => (.ok (rv' :: args), s3)
            | (.error e3, s3) => (.error e3, s3)
        | (none, rv', s2) =>
          match prepareArgs (fuel + 1) s2 rest with
          | (.ok args, s3) => (.ok (rv' :: args), s3)
          | (.error e3, s3) => (.error e3, s3)

def inject : Nat → Inj → Value → Option DinoErr × Value × Inj
  | 0, s, rv => (some (.ofBase .outOfFuel), rv, s)
  | fuel + 1, s, rv =>
    if isPointerToStruct rv.ty then
      match rv with
      | .ptrV pt (some (.structV _ nm fs vals)) =>
        -- reflect.Indirect: the pointee of a non-nil pointer is addressable
        match injectFields fuel s fs vals true with
        | (r, vals', s') =>
          (r, .ptrV pt (some (.structV true nm fs vals')), s')
      | _ =>
        -- a nil *struct: reflect.Indirect yields the invalid Value and the
        -- subsequent rv.Type() panics in Go; no embedded caller passes one
        (some (.ofBase .panicked), rv, s)
    else
      match rv with
      | .structV addr nm fs vals =>
        match injectFields fuel s fs vals addr with
        | (r, vals', s') => (r, .structV addr nm fs vals', s')
      | _ => (some ⟨.expectedStruct, [.kindGot (kindName rv.ty)]⟩, rv, s)

def injectFields : Nat → Inj → Fields → List Value → Bool →
    Option DinoErr × List Value × Inj
  | 0, s, _, vals, _ => (some (.ofBase .outOfFuel), vals, s)
  | _ + 1, s, .nil, vals, _ => (none, vals, s)
  | fuel + 1, s, .cons fname ftag fexp fty frest, vals, addr =>
    match vals with
    | [] => (none, [], s)
    | v :: vrest =>
      -- field.CanSet(): the struct is addressable and the field exported
      if !(addr && fexp) then
        match injectFields (fuel + 1) s frest vrest addr with
        | (r, vrest', s') => (r, v :: vrest', s')
      else
        match resolve fuel s ⟨ftag, some fty⟩ with
        | (.ok rv, s1) =>
          match injectFields (fuel + 1) s1 frest vrest addr with
          | (r, vrest', s2) => (r, rv :: vrest', s2)
        | (.error e, s1) =>
          if !(e.is .valueNotFound) then
            (some (e.wrap (.resolveField fname)), v :: vrest, s1)
          else
            let val := create fty
            match inject fuel s1 val with
            | (some e2, val', s2) =>
              if !(e2.is .expectedStruct) then
                (some (e2.wrap (.injectField fname)), v :: vrest, s2)
              else
                match injectFields (fuel + 1) s2 frest vrest addr with
                | (r, vrest', s3) => (r, val' :: vrest', s3)
            | (none, val', s2) =>
              match injectFields (fuel + 1) s2 frest vrest addr with
              | (r, vrest', s3) => (r, val' :: vrest', s3)

end

/-!
Helper lemmas shared by the claim theorems.
-/

/-- A value that is not nil is valid (`reflect.Value.IsNil` panics on the
invalid value only through `isNil`'s guard, which reports it as nil). -/
theorem isValid_of_not_isNil {v : Value} (h : isNil v = false) :
    v.isValid = true := by
  cases v <;> simp_all [isNil, Value.isValid]

/-- `Tys.length` of a type list. -/
theorem tys_length_cons (t : Ty) (rest : Tys) :
    (Tys.cons t rest).length = 1 + rest.length := rfl

end Dino

namespace Dino

/-!
# Claim theorems
-/

/-- **C8**: for every key with a non-nil type component and valid values,
`Register` succeeds and a subsequent `Find` returns exactly the registered
value; registering twice at the same key makes `Find` return only the
second value (last write wins); and a value registered under tag `A` at
type `T` is invisible to `Find` under tag `B` at `T` when `A ≠ B` (the
lookup result for the other tag is exactly what it was before). -/
theorem registry_roundtrip_overwrite_isolation
    (m : RegMap) (k : RegistryKey) (t T : Ty) (v v' : Value) (A B : String)
    (hk : k.ty = some t) (hv : v.isValid = true) (hv' : v'.isValid = true)
    (hAB : A ≠ B) :
    (registryRegister m k v = .ok ((k, v) :: m)
      ∧ registryFind ((k, v) :: m) k = .ok v)
    ∧ (registryRegister ((k, v) :: m) k v' = .ok ((k, v') :: (k, v) :: m)
      ∧ registryFind ((k, v') :: (k, v) :: m) k = .ok v')
    ∧ registryFind ((⟨A, some T⟩, v) :: m) ⟨B, some T⟩
        = registryFind m ⟨B, some T⟩ := by
  refine ⟨⟨?_, ?_⟩, ⟨?_, ?_⟩, ?_⟩ <;>
    simp [registryRegister, registryFind, RegMap.load, hk, hv, hv', hAB]

/-- Witness for C8 at a concrete registry, key, and values. -/
theorem registry_roundtrip_overwrite_isolation_witness :
    (registryRegister [] ⟨"a", some (.scalar "int")⟩ (.scalarV "int" 1)
        = .ok [(⟨"a", some (.scalar "int")⟩, .scalarV "int" 1)]
      ∧ registryFind [(⟨"a", some (.scalar "int")⟩, .scalarV "int" 1)]
          ⟨"a", some (.scalar "int")⟩ = .ok (.scalarV "int" 1))
    ∧ (registryRegister [(⟨"a", some (.scalar "int")⟩, .scalarV "int" 1)]
          ⟨"a", some (.scalar "int")⟩ (.scalarV "int" 2)
        = .ok [(⟨"a", some (.scalar "int")⟩, .scalarV "int" 2),
               (⟨"a", some (.scalar "int")⟩, .scalarV "int" 1)]
      ∧ registryFind [(⟨"a", some (.scalar "int")⟩, .scalarV "int" 2),
               (⟨"a", some (.scalar "int")⟩, .scalarV "int" 1)]
          ⟨"a", some (.scalar "int")⟩ = .ok (.scalarV "int" 2))
    ∧ registryFind [(⟨"A", some (.scalar "int")⟩, .scalarV "int" 1)]
          ⟨"B", some (.scalar "int")⟩
        = registryFind [] ⟨"B", some (.scalar "int")⟩ :=
  registry_roundtrip_overwrite_isolation [] ⟨"a", some (.scalar "int")⟩
    (.scalar "int") (.scalar "int") (.scalarV "int" 1) (.scalarV "int" 2)
    "A" "B" rfl rfl rfl (by decide)

/-- **C9**: for every key whose type component is nil, `Register` fails
with `KeyTypeNil` (storing nothing), `Find` fails with `KeyTypeNil`, and
`Resolve` on such a key propagates the failure (the returned error wraps
the `KeyTypeNil` sentinel, so `errors.Is` still identifies it), leaving
the injector state untouched. -/
theorem nil_key_type_rejected
    (m : RegMap) (k : RegistryKey) (v : Value) (s : Inj) (fuel : Nat)
    (hk : k.ty = none) :
    registryRegister m k v = .error (.ofBase .keyTypeNil)
    ∧ registryFind m k = .error (.ofBase .keyTypeNil)
    ∧ resolve (fuel + 1) s k
        = (.error (DinoErr.wrap (.resolveKey k.ty k.tag)
            (.ofBase .keyTypeNil)), s)
    ∧ (DinoErr.wrap (.resolveKey k.ty k.tag)
        (.ofBase .keyTypeNil)).is .keyTypeNil = true := by
  refine ⟨?_, ?_, ?_, ?_⟩ <;>
    simp [registryRegister, registryFind, resolve, hk,
      DinoErr.is, DinoErr.wrap, DinoErr.ofBase]

/-- Witness for C9 at a concrete nil-typed key. -/
theorem nil_key_type_rejected_witness :
    registryRegister [] ⟨"x", none⟩ (.scalarV "int" 3)
        = .error (.ofBase .keyTypeNil)
    ∧ registryFind [] ⟨"x", none⟩ = .error (.ofBase .keyTypeNil)
    ∧ resolve 1 ⟨[], [], 0⟩ ⟨"x", none⟩
        = (.error (DinoErr.wrap (.resolveKey none "x")
            (.ofBase .keyTypeNil)), ⟨[], [], 0⟩)
    ∧ (DinoErr.wrap (.resolveKey none "x")
        (.ofBase .keyTypeNil)).is .keyTypeNil = true :=
  nil_key_type_rejected [] ⟨"x", none⟩ (.scalarV "int" 3) ⟨[], [], 0⟩ 0 rfl

/-- **C6**: `Create` is total — it returns a (valid) value for every type
and has no failure outcome — and dispatches by type category: sequences
become empty zero-capacity sequences, mappings empty mappings, channels
fresh unbuffered channels, pointers freshly allocated zero-valued
referents, callables a synthesized stub whose invocation applies `Create`
to each declared output type in order, and every other category (aggregate,
scalar, interface) its zero value. -/
theorem create_total_dispatch :
    (∀ t : Ty, (create t).isValid = true)
    ∧ (∀ e, create (.slice e) = .sliceV e (some ([], 0)))
    ∧ (∀ k v, create (.mp k v) = .mapV k v (some []))
    ∧ (∀ e, create (.chan e) = .chanV e (some 0))
    ∧ (∀ e, create (.ptr e) = .ptrV e (some (zeroValue e)))
    ∧ (∀ p o, create (.func p o) = .funcV p o (some .createStub))
    ∧ (∀ p o args, callValue (create (.func p o)) args = createOuts o)
    ∧ createOuts .nil = []
    ∧ (∀ t rest, createOuts (.cons t rest) = create t :: createOuts rest)
    ∧ (∀ n, create (.scalar n) = zeroValue (.scalar n))
    ∧ (∀ n fs, create (.strct n fs) = zeroValue (.strct n fs))
    ∧ create .err = zeroValue .err := by
  refine ⟨?_, fun _ => rfl, fun _ _ => rfl, fun _ => rfl, fun _ => rfl,
    fun _ _ => rfl, fun _ _ _ => rfl, rfl, fun _ _ => rfl, fun _ => rfl,
    fun _ _ => rfl, rfl⟩
  intro t
  cases t <;> simp [create, zeroValue, Value.isValid]

/-- **C10**: resolving a key bound to a literal value — one that is not a
callable, or a callable whose own runtime type equals the key's type —
returns the stored value unchanged and leaves the whole injector state
(registry contents, in-flight set, and the invocation count) exactly as it
was: the provider branch is not entered and no memoization write happens. -/
theorem resolve_literal_value_frame
    (fuel : Nat) (s : Inj) (key : RegistryKey) (rv : Value)
    (hfind : registryFind s.reg key = .ok rv)
    (hlit : isFunction rv.ty = false ∨ some rv.ty = key.ty)
    (hstack : key ∉ s.stack) :
    resolve (fuel + 1) s key = (.ok rv, s) := by
  have hcond : ¬(isFunction rv.ty = true ∧ some rv.ty ≠ key.ty) := by
    rcases hlit with h | h
    · exact fun hc => by simp [h] at hc
    · exact fun hc => hc.2 h
  simp [resolve, hfind, hstack, hcond, List.erase_cons_head]

/-- Witness for C10: a literal `int` binding and a literal callable bound
under its own function type both resolve unchanged with an unchanged
state. -/
theorem resolve_literal_value_frame_witness :
    resolve 4 ⟨[(⟨"", some (.scalar "int")⟩, .scalarV "int" 42)], [], 5⟩
        ⟨"", some (.scalar "int")⟩
      = (.ok (.scalarV "int" 42),
         ⟨[(⟨"", some (.scalar "int")⟩, .scalarV "int" 42)], [], 5⟩)
    ∧ resolve 4 ⟨[(⟨"f", some (.func .nil .nil)⟩,
          .funcV .nil .nil (some (.consts [])))], [], 5⟩
        ⟨"f", some (.func .nil .nil)⟩
      = (.ok (.funcV .nil .nil (some (.consts []))),
         ⟨[(⟨"f", some (.func .nil .nil)⟩,
            .funcV .nil .nil (some (.consts [])))], [], 5⟩) := by
  constructor
  · exact resolve_literal_value_frame 3 _ _ _ (by simp [registryFind, RegMap.load])
      (Or.inl (by simp [Value.ty, isFunction])) (by simp)
  · exact resolve_literal_value_frame 3 _ _ _ (by simp [registryFind, RegMap.load])
      (Or.inr (by simp [Value.ty])) (by simp)

/-- The memoization entries written while the output loop processes a list
of non-error outputs: one registry entry per non-nil value, keyed by the
triggering tag and the value's own type, newest first. -/
def memoWrites (tag : String) (vs : List Value) : RegMap :=
  (vs.filter (fun v => !isNil v)).reverse.map (fun v => (⟨tag, some v.ty⟩, v))

/-- Binding one non-nil output back into the registry always succeeds and
prepends the entry. -/
theorem bind_output_ok (m : RegMap) (v : Value) (tag : String)
    (hn : isNil v = false) :
    bind m v.ty v [tag] = .ok ((⟨tag, some v.ty⟩, v) :: m) := by
  simp [bind, bindLoop, registryRegister, isValid_of_not_isNil hn]

/-- Running the output loop over a prefix of non-error outputs followed by
an error-shaped output: the loop fails with the "factory function ...
returned error" wrap and keeps the writes made for the prefix. -/
theorem processOutputs_error_mid_list
    (key : RegistryKey) (bad : Value) (rest : List Value) (msg : String)
    (hbad : asError bad = some msg) :
    ∀ (good : List Value) (m : RegMap) (resVal : Value),
    (∀ v ∈ good, asError v = none) →
    processOutputs m key resVal (good ++ bad :: rest)
      = (.error (DinoErr.wrap (.factoryReturnedError key.ty key.tag)
          (.ofBase (.userError msg))),
         memoWrites key.tag good ++ m) := by
  intro good
  induction good with
  | nil =>
    intro m resVal _
    simp [processOutputs, hbad, memoWrites]
  | cons g gs ih =>
    intro m resVal hg
    have hge : asError g = none := hg g (by simp)
    have hgs : ∀ v ∈ gs, asError v = none := fun v hv => hg v (by simp [hv])
    by_cases hnil : isNil g = true
    · simp [processOutputs, hge, hnil, ih _ _ hgs, memoWrites]
    · have hnil' : isNil g = false := by simpa using hnil
      simp [processOutputs, hge, hnil', bind_output_ok _ _ _ hnil',
        ih _ _ hgs, memoWrites]

/-- **C3**: when `Resolve` of key `k` invokes a provider whose output list
contains a non-nil error-shaped value, it fails with the wrapped "factory
function ... returned error" carrying `k`'s type and tag (around the
provider's own error), the invocation is counted, and every non-error
non-nil output at an earlier position has nevertheless been registered
under `{tag := k.tag, type := that output's own type}`: the final registry
is the memoization writes for the prefix on top of the original registry —
nothing is rolled back. -/
theorem resolve_provider_error_keeps_prefix_writes
    (n : Nat) (s : Inj) (key : RegistryKey) (kt : Ty) (outsT : Tys)
    (good : List Value) (bad : Value) (rest : List Value) (msg : String)
    (hk : key.ty = some kt)
    (hfind : registryFind s.reg key
      = .ok (.funcV .nil outsT (some (.consts (good ++ bad :: rest)))))
    (hfac : Ty.func .nil outsT ≠ kt)
    (hstack : key ∉ s.stack)
    (hgood : ∀ v ∈ good, asError v = none)
    (hbad : asError bad = some msg) :
    resolve (n + 3) s key
      = (.error (DinoErr.wrap (.factoryReturnedError key.ty key.tag)
          (.ofBase (.userError msg))),
         { s with reg := memoWrites key.tag good ++ s.reg,
                  calls := s.calls + 1 })
    ∧ ∀ v ∈ good, isNil v = false →
        (⟨key.tag, some v.ty⟩, v) ∈ memoWrites key.tag good ++ s.reg := by
  constructor
  · have hne : some (Ty.func .nil outsT) ≠ key.ty := by
      rw [hk]; exact fun hc => hfac (by injection hc)
    have h37 : n + 3 = (n + 2) + 1 := rfl
    rw [h37]
    simp only [resolve, hfind]
    rw [if_neg hstack]
    simp only [Value.ty, isFunction, prepare, prepareArgs, callValue, callFunc]
    rw [if_pos ⟨by simp, hne⟩]
    simp only [processOutputs_error_mid_list key bad rest msg hbad good
      _ _ hgood]
    simp [List.erase_cons_head]
  · intro v hv hn
    simp only [memoWrites, List.mem_append]
    exact Or.inl (by
      simp only [List.mem_map, List.mem_reverse, List.mem_filter]
      exact ⟨v, ⟨hv, by simp [hn]⟩, rfl⟩)

/-- Witness for C3: a provider returning a good output and then an error;
the good output's memoization write survives the failure. -/
theorem resolve_provider_error_keeps_prefix_writes_witness :
    resolve 3
        ⟨[(⟨"t", some (.scalar "X")⟩,
           .funcV .nil .nil (some (.consts [.scalarV "G" 5, .errV (some "boom")])))],
         [], 0⟩
        ⟨"t", some (.scalar "X")⟩
      = (.error (DinoErr.wrap (.factoryReturnedError (some (.scalar "X")) "t")
          (.ofBase (.userError "boom"))),
         ⟨[(⟨"t", some (.scalar "G")⟩, .scalarV "G" 5),
           (⟨"t", some (.scalar "X")⟩,
            .funcV .nil .nil (some (.consts [.scalarV "G" 5, .errV (some "boom")])))],
          [], 1⟩)
    ∧ (⟨"t", some (.scalar "G")⟩, (.scalarV "G" 5 : Value))
        ∈ memoWrites "t" [.scalarV "G" 5]
          ++ [(⟨"t", some (.scalar "X")⟩,
               (.funcV .nil .nil (some (.consts [.scalarV "G" 5, .errV (some "boom")])) : Value))] := by
  have h := resolve_provider_error_keeps_prefix_writes 0
    ⟨[(⟨"t", some (.scalar "X")⟩,
       .funcV .nil .nil (some (.consts [.scalarV "G" 5, .errV (some "boom")])))],
     [], 0⟩
    ⟨"t", some (.scalar "X")⟩ (.scalar "X") .nil
    [.scalarV "G" 5] (.errV (some "boom")) [] "boom"
    rfl (by simp [registryFind, RegMap.load]) (by decide) (by simp)
    (by intro v hv; simp at hv; subst hv; rfl) rfl
  refine ⟨?_, h.2 (.scalarV "G" 5) (by simp) rfl⟩
  have h1 := h.1
  simpa [memoWrites, Value.ty] using h1

/-- **C1**: a provider producing non-nil, non-error outputs `x : X` and
`y : Y`, bound under tag `t` at both keys `{t, X}` and `{t, Y}`: resolving
`{t, X}` invokes the provider exactly once (the invocation count rises by
one), registers each output back into the registry under the same tag and
the output's own type, and returns the output whose type is `X`; the
subsequent resolution of `{t, Y}` returns the memoized `y` without
invoking the provider again (count and registry unchanged). -/
theorem resolve_multi_output_memoization
    (n m c0 : Nat) (reg0 : RegMap) (t : String) (X Y : Ty)
    (x y : Value) (outsT : Tys)
    (hx : x.ty = X) (hy : y.ty = Y) (hXY : X ≠ Y)
    (hxe : asError x = none) (hye : asError y = none)
    (hxn : isNil x = false) (hyn : isNil y = false)
    (hfX : registryFind reg0 ⟨t, some X⟩
      = .ok (.funcV .nil outsT (some (.consts [x, y]))))
    (_hfY : registryFind reg0 ⟨t, some Y⟩
      = .ok (.funcV .nil outsT (some (.consts [x, y]))))
    (hfac : Ty.func .nil outsT ≠ X) :
    resolve (n + 3) ⟨reg0, [], c0⟩ ⟨t, some X⟩
      = (.ok x, ⟨(⟨t, some Y⟩, y) :: (⟨t, some X⟩, x) :: reg0, [], c0 + 1⟩)
    ∧ resolve (m + 1)
        ⟨(⟨t, some Y⟩, y) :: (⟨t, some X⟩, x) :: reg0, [], c0 + 1⟩
        ⟨t, some Y⟩
      = (.ok y, ⟨(⟨t, some Y⟩, y) :: (⟨t, some X⟩, x) :: reg0, [], c0 + 1⟩) := by
  have hYX : Y ≠ X := Ne.symm hXY
  constructor
  · have hne : some (Ty.func .nil outsT) ≠ (some X : Option Ty) :=
      fun hc => hfac (by injection hc)
    have h31 : n + 3 = (n + 2) + 1 := rfl
    rw [h31]
    simp only [resolve, hfX]
    rw [if_neg (List.not_mem_nil _)]
    simp only [Value.ty, prepare, prepareArgs, callValue, callFunc]
    rw [if_pos ⟨by simp [isFunction], hne⟩]
    simp only [processOutputs, hxe, hxn, hye, hyn, hx, hy]
    have hbx : bind reg0 X x [t] = .ok ((⟨t, some X⟩, x) :: reg0) := by
      rw [← hx]; exact bind_output_ok reg0 x t hxn
    have hby : bind ((⟨t, some X⟩, x) :: reg0) Y y [t]
        = .ok ((⟨t, some Y⟩, y) :: (⟨t, some X⟩, x) :: reg0) := by
      rw [← hy]; exact bind_output_ok _ y t hyn
    simp [hbx, hby, hYX, List.erase_cons_head]
  · simp only [resolve]
    have hfind : registryFind
        ((⟨t, some Y⟩, y) :: (⟨t, some X⟩, x) :: reg0) ⟨t, some Y⟩
        = .ok y := by
      simp [registryFind, RegMap.load]
    simp only [hfind]
    rw [if_neg (List.not_mem_nil _)]
    have hcond : ¬(isFunction y.ty = true ∧ (some y.ty ≠ (some Y : Option Ty))) :=
      fun hc => hc.2 (by rw [hy])
    rw [if_neg hcond]
    simp [List.erase_cons_head]

/-- Witness for C1: a provider returning `(X := 7, Y := 8)` under tag
`"t"`, bound at both keys. -/
theorem resolve_multi_output_memoization_witness :
    resolve 3
        ⟨[(⟨"t", some (.scalar "X")⟩,
           .funcV .nil .nil (some (.consts [.scalarV "X" 7, .scalarV "Y" 8]))),
          (⟨"t", some (.scalar "Y")⟩,
           .funcV .nil .nil (some (.consts [.scalarV "X" 7, .scalarV "Y" 8])))],
         [], 0⟩
        ⟨"t", some (.scalar "X")⟩
      = (.ok (.scalarV "X" 7),
         ⟨(⟨"t", some (.scalar "Y")⟩, .scalarV "Y" 8)
            :: (⟨"t", some (.scalar "X")⟩, .scalarV "X" 7)
            :: [(⟨"t", some (.scalar "X")⟩,
                 .funcV .nil .nil (some (.consts [.scalarV "X" 7, .scalarV "Y" 8]))),
                (⟨"t", some (.scalar "Y")⟩,
                 .funcV .nil .nil (some (.consts [.scalarV "X" 7, .scalarV "Y" 8])))],
          [], 0 + 1⟩)
    ∧ resolve 1
        ⟨(⟨"t", some (.scalar "Y")⟩, .scalarV "Y" 8)
            :: (⟨"t", some (.scalar "X")⟩, .scalarV "X" 7)
            :: [(⟨"t", some (.scalar "X")⟩,
                 .funcV .nil .nil (some (.consts [.scalarV "X" 7, .scalarV "Y" 8]))),
                (⟨"t", some (.scalar "Y")⟩,
                 .funcV .nil .nil (some (.consts [.scalarV "X" 7, .scalarV "Y" 8])))],
          [], 0 + 1⟩
        ⟨"t", some (.scalar "Y")⟩
      = (.ok (.scalarV "Y" 8),
         ⟨(⟨"t", some (.scalar "Y")⟩, .scalarV "Y" 8)
            :: (⟨"t", some (.scalar "X")⟩, .scalarV "X" 7)
            :: [(⟨"t", some (.scalar "X")⟩,
                 .funcV .nil .nil (some (.consts [.scalarV "X" 7, .scalarV "Y" 8]))),
                (⟨"t", some (.scalar "Y")⟩,
                 .funcV .nil .nil (some (.consts [.scalarV "X" 7, .scalarV "Y" 8])))],
          [], 0 + 1⟩) :=
  resolve_multi_output_memoization 0 0 0
    [(⟨"t", some (.scalar "X")⟩,
      .funcV .nil .nil (some (.consts [.scalarV "X" 7, .scalarV "Y" 8]))),
     (⟨"t", some (.scalar "Y")⟩,
      .funcV .nil .nil (some (.consts [.scalarV "X" 7, .scalarV "Y" 8])))]
    "t" (.scalar "X") (.scalar "Y") (.scalarV "X" 7) (.scalarV "Y" 8) .nil
    rfl rfl (by decide) rfl rfl rfl rfl
    (by simp [registryFind, RegMap.load])
    (by simp [registryFind, RegMap.load])
    (by decide)

/-- A successful argument preparation yields exactly one argument per
declared parameter. -/
theorem prepareArgs_ok_length (ts : Tys) :
    ∀ (fuel : Nat) (s : Inj) (args : List Value) (s' : Inj),
    prepareArgs fuel s ts = (.ok args, s') → args.length = Tys.length ts := by
  match ts with
  | .nil =>
    intro fuel s args s' h
    match fuel with
    | 0 => simp [prepareArgs] at h
    | f + 1 =>
      simp only [prepareArgs, Prod.mk.injEq] at h
      obtain ⟨h1, -⟩ := h
      injection h1 with h1
      simp [← h1, Tys.length]
  | .cons rt rest =>
    intro fuel s args s' h
    match fuel with
    | 0 => simp [prepareArgs] at h
    | f + 1 =>
      simp only [prepareArgs] at h
      split at h
      next rv s1 heq =>
        split at h
        next args2 s2 heq2 =>
          simp only [Prod.mk.injEq] at h
          obtain ⟨h1, -⟩ := h
          injection h1 with h1
          subst h1
          simp [Tys.length, prepareArgs_ok_length rest _ _ _ _ heq2]
          omega
        next e2 s2 heq2 => simp at h
      next e s1 heq =>
        split at h
        next => simp at h
        next =>
          split at h
          next e2 rv2 s2 heq2 =>
            split at h
            next => simp at h
            next =>
              split at h
              next args3 s3 heq3 =>
                simp only [Prod.mk.injEq] at h
                obtain ⟨h1, -⟩ := h
                injection h1 with h1
                subst h1
                simp [Tys.length, prepareArgs_ok_length rest _ _ _ _ heq3]
                omega
              next e3 s3 heq3 => simp at h
          next rv2 s2 heq2 =>
            split at h
            next args3 s3 heq3 =>
              simp only [Prod.mk.injEq] at h
              obtain ⟨h1, -⟩ := h
              injection h1 with h1
              subst h1
              simp [Tys.length, prepareArgs_ok_length rest _ _ _ _ heq3]
              omega
            next e3 s3 heq3 => simp at h

/-- **C5**: `Prepare` rejects any non-callable type with `ExpectedFunction`;
for a callable it builds one argument per declared parameter in declaration
order, always resolving under the key `{tag := "", type := paramType}`
(the empty tag, whatever key triggered the preparation): a successful
lookup supplies the value, a `ValueNotFound` failure is recovered by
`Create(paramType)` (with the created aggregate injected, a non-aggregate
leaving it as created), and any other resolution error aborts the whole
preparation wrapped with the parameter type; a successful preparation
returns exactly as many arguments as there are parameters. -/
theorem prepare_contract :
    (∀ (f : Nat) (s : Inj) (t : Ty), isFunction t = false →
      prepare (f + 1) s t
        = (.error ⟨.expectedFunction, [.kindGot (kindName t)]⟩, s))
    ∧ (∀ (f : Nat) (s : Inj) (params outs : Tys),
      prepare (f + 1) s (.func params outs) = prepareArgs f s params)
    ∧ (∀ (f : Nat) (s : Inj), prepareArgs (f + 1) s .nil = (.ok [], s))
    ∧ (∀ (f : Nat) (s s1 s2 : Inj) (rt : Ty) (rest : Tys) (rv : Value)
        (args : List Value),
      resolve f s ⟨"", some rt⟩ = (.ok rv, s1) →
      prepareArgs (f + 1) s1 rest = (.ok args, s2) →
      prepareArgs (f + 1) s (.cons rt rest) = (.ok (rv :: args), s2))
    ∧ (∀ (f : Nat) (s s1 s2 s3 : Inj) (rt : Ty) (rest : Tys) (e : DinoErr)
        (rv2 : Value) (args : List Value),
      resolve f s ⟨"", some rt⟩ = (.error e, s1) →
      e.is .valueNotFound = true →
      inject f s1 (create rt) = (none, rv2, s2) →
      prepareArgs (f + 1) s2 rest = (.ok args, s3) →
      prepareArgs (f + 1) s (.cons rt rest) = (.ok (rv2 :: args), s3))
    ∧ (∀ (f : Nat) (s s1 s2 s3 : Inj) (rt : Ty) (rest : Tys) (e e2 : DinoErr)
        (rv2 : Value) (args : List Value),
      resolve f s ⟨"", some rt⟩ = (.error e, s1) →
      e.is .valueNotFound = true →
      inject f s1 (create rt) = (some e2, rv2, s2) →
      e2.is .expectedStruct = true →
      prepareArgs (f + 1) s2 rest = (.ok args, s3) →
      prepareArgs (f + 1) s (.cons rt rest) = (.ok (rv2 :: args), s3))
    ∧ (∀ (f : Nat) (s s1 : Inj) (rt : Ty) (rest : Tys) (e : DinoErr),
      resolve f s ⟨"", some rt⟩ = (.error e, s1) →
      e.is .valueNotFound = false →
      prepareArgs (f + 1) s (.cons rt rest)
        = (.error (e.wrap (.resolveArgument rt)), s1))
    ∧ (∀ (ts : Tys) (fuel : Nat) (s : Inj) (args : List Value) (s' : Inj),
      prepareArgs fuel s ts = (.ok args, s') →
      args.length = Tys.length ts) := by
  refine ⟨?_, ?_, ?_, ?_, ?_, ?_, ?_, ?_⟩
  · intro f s t ht
    cases t <;> simp_all [prepare, isFunction]
  · intro f s params outs
    simp [prepare]
  · intro f s
    simp [prepareArgs]
  · intro f s s1 s2 rt rest rv args hres hrest
    simp only [prepareArgs, hres, hrest]
  · intro f s s1 s2 s3 rt rest e rv2 args hres hnf hinj hrest
    simp only [prepareArgs, hres, hnf, hinj, hrest]
    simp
  · intro f s s1 s2 s3 rt rest e e2 rv2 args hres hnf hinj hes hrest
    simp only [prepareArgs, hres, hnf, hinj, hes, hrest]
    simp
  · intro f s s1 rt rest e hres hnf
    simp only [prepareArgs, hres, hnf]
    simp
  · exact fun ts fuel s args s' h => prepareArgs_ok_length ts fuel s args s' h

/-- Witness for C5: a non-function type is rejected; a bound `int`
parameter is resolved under the empty tag; an unbound parameter falls back
to `Create`. -/
theorem prepare_contract_witness :
    prepare 1 ⟨[], [], 0⟩ (.scalar "int")
      = (.error ⟨.expectedFunction, [.kindGot (kindName (.scalar "int"))]⟩,
         ⟨[], [], 0⟩)
    ∧ prepareArgs 2 ⟨[(⟨"", some (.scalar "int")⟩, .scalarV "int" 42)], [], 0⟩
        (.cons (.scalar "int") .nil)
      = (.ok [.scalarV "int" 42],
         ⟨[(⟨"", some (.scalar "int")⟩, .scalarV "int" 42)], [], 0⟩)
    ∧ prepareArgs 2 ⟨[], [], 0⟩ (.cons (.scalar "bool") .nil)
      = (.ok [.scalarV "bool" 0], ⟨[], [], 0⟩) := by
  refine ⟨prepare_contract.1 0 _ _ rfl, ?_, ?_⟩
  · exact prepare_contract.2.2.2.1 1 _ _ _ _ .nil _ []
      (by simp [resolve, registryFind, RegMap.load, Value.ty, isFunction,
        List.erase_cons_head])
      (prepare_contract.2.2.1 1 _)
  · exact prepare_contract.2.2.2.2.2.1 1 ⟨[], [], 0⟩ ⟨[], [], 0⟩ ⟨[], [], 0⟩
      ⟨[], [], 0⟩ (.scalar "bool") .nil
      ⟨.valueNotFound, [.resolveKey (some (.scalar "bool")) ""]⟩
      ⟨.expectedStruct, [.kindGot "bool"]⟩ (.scalarV "bool" 0) []
      (by simp [resolve, registryFind, RegMap.load, DinoErr.wrap, DinoErr.ofBase])
      rfl
      (by simp [inject, create, zeroValue, Value.ty, isPointerToStruct,
        isStruct, kindName])
      rfl
      (prepare_contract.2.2.1 1 _)

/-- **C7**: during injection of an aggregate, a field whose resolution
fails with an error other than `ValueNotFound` aborts the remaining
fields: the error comes back wrapped with the failing field's name, the
failing field and every field after it keep their prior values, and the
resulting state is exactly the state the failed resolution left.  The
first part characterises the field loop from an arbitrary reached state
(covering a failure at any position); the second lifts it to `Inject` on a
pointer-to-struct target whose first field fails. -/
theorem inject_field_error_aborts
    (w : Nat) (s s1 : Inj) (fname ftag : String) (fty : Ty) (frest : Fields)
    (v : Value) (vrest : List Value) (e : DinoErr)
    (hres : resolve w s ⟨ftag, some fty⟩ = (.error e, s1))
    (hnf : e.is .valueNotFound = false) :
    injectFields (w + 1) s (.cons fname ftag true fty frest) (v :: vrest) true
      = (some (e.wrap (.resolveField fname)), v :: vrest, s1)
    ∧ ∀ (pn : String) (pfs fs : Fields) (a : Bool) (nm : String),
      fs = .cons fname ftag true fty frest →
      inject (w + 2) s
          (.ptrV (.strct pn pfs) (some (.structV a nm fs (v :: vrest))))
        = (some (e.wrap (.resolveField fname)),
           .ptrV (.strct pn pfs) (some (.structV true nm fs (v :: vrest))),
           s1) := by
  have hstep : injectFields (w + 1) s
      (.cons fname ftag true fty frest) (v :: vrest) true
      = (some (e.wrap (.resolveField fname)), v :: vrest, s1) := by
    simp only [injectFields, hres, hnf]
    simp
  refine ⟨hstep, ?_⟩
  intro pn pfs fs a nm hfs
  subst hfs
  simp only [inject, Value.ty, isPointerToStruct, isStruct, hstep]
  simp

/-- Witness for C7: a two-field struct whose first field's type is bound
to a provider that returns an error; injection aborts with the wrapped
field name and the second field keeps its prior (zero) value. -/
theorem inject_field_error_aborts_witness :
    injectFields 4
        ⟨[(⟨"", some (.scalar "D")⟩,
           .funcV .nil .nil (some (.consts [.errV (some "dead")])))], [], 0⟩
        (.cons "Dep" "" true (.scalar "D")
          (.cons "Other" "" true (.scalar "int") .nil))
        [.scalarV "D" 0, .scalarV "int" 0] true
      = (some (DinoErr.wrap (.resolveField "Dep")
          (DinoErr.wrap (.factoryReturnedError (some (.scalar "D")) "")
            (.ofBase (.userError "dead")))),
         [.scalarV "D" 0, .scalarV "int" 0],
         ⟨[(⟨"", some (.scalar "D")⟩,
            .funcV .nil .nil (some (.consts [.errV (some "dead")])))], [], 1⟩)
    ∧ inject 5
        ⟨[(⟨"", some (.scalar "D")⟩,
           .funcV .nil .nil (some (.consts [.errV (some "dead")])))], [], 0⟩
        (.ptrV (.strct "T" (.cons "Dep" "" true (.scalar "D")
            (.cons "Other" "" true (.scalar "int") .nil)))
          (some (.structV false "T"
            (.cons "Dep" "" true (.scalar "D")
              (.cons "Other" "" true (.scalar "int") .nil))
            [.scalarV "D" 0, .scalarV "int" 0])))
      = (some (DinoErr.wrap (.resolveField "Dep")
          (DinoErr.wrap (.factoryReturnedError (some (.scalar "D")) "")
            (.ofBase (.userError "dead")))),
         .ptrV (.strct "T" (.cons "Dep" "" true (.scalar "D")
            (.cons "Other" "" true (.scalar "int") .nil)))
          (some (.structV true "T"
            (.cons "Dep" "" true (.scalar "D")
              (.cons "Other" "" true (.scalar "int") .nil))
            [.scalarV "D" 0, .scalarV "int" 0])),
         ⟨[(⟨"", some (.scalar "D")⟩,
            .funcV .nil .nil (some (.consts [.errV (some "dead")])))], [], 1⟩) := by
  have hres : resolve 3
      ⟨[(⟨"", some (.scalar "D")⟩,
         .funcV .nil .nil (some (.consts [.errV (some "dead")])))], [], 0⟩
      ⟨"", some (.scalar "D")⟩
      = (.error (DinoErr.wrap (.factoryReturnedError (some (.scalar "D")) "")
          (.ofBase (.userError "dead"))),
         ⟨[(⟨"", some (.scalar "D")⟩,
            .funcV .nil .nil (some (.consts [.errV (some "dead")])))], [], 1⟩) := by
    simp [resolve, registryFind, RegMap.load, Value.ty, isFunction, prepare,
      prepareArgs, callValue, callFunc, processOutputs, asError, isNil,
      DinoErr.wrap, DinoErr.ofBase, zeroOfKey, List.erase_cons_head]
  have h := inject_field_error_aborts 3 _ _ "Dep" "" (.scalar "D")
    (.cons "Other" "" true (.scalar "int") .nil)
    (.scalarV "D" 0) [.scalarV "int" 0] _ hres rfl
  exact ⟨h.1, h.2 "T" _ _ false "T" rfl⟩

/-- The field loop on a non-addressable struct (one built by
`reflect.Zero`, as `Create` does for bare aggregate types) assigns
nothing: `CanSet` is false for every field, so each one is skipped. -/
theorem injectFields_unaddressable (fs : Fields) :
    ∀ (f : Nat) (s : Inj) (vals : List Value),
    injectFields (f + 1) s fs vals false = (none, vals, s) := by
  match fs with
  | .nil =>
    intro f s vals
    simp [injectFields]
  | .cons n g ex t rest =>
    intro f s vals
    cases vals with
    | nil => simp [injectFields]
    | cons v vrest =>
      simp [injectFields, injectFields_unaddressable rest f s vrest]

/-- Concrete struct types for the C4 scenario: `Leaf {V int}`,
`Mid {T *Leaf}`, `Outer {M Mid}`, `Outer2 {P *Mid}`. -/
def leafC4 : Ty := .strct "Leaf" (.cons "V" "" true (.scalar "int") .nil)

def midFsC4 : Fields := .cons "T" "" true (.ptr leafC4) .nil

def midC4 : Ty := .strct "Mid" midFsC4

def outerFsC4 : Fields := .cons "M" "" true midC4 .nil

def outerC4 : Ty := .strct "Outer" outerFsC4

/-- **C4 counterexample**: injecting `&Outer{M Mid}` with an empty
registry, where `Mid{T *Leaf}`.  `M` is an exported aggregate-typed field
with no binding; the claim requires its unregistered
(reference-to-)aggregate sub-field `T` to be set to a non-null default,
but the code sets `M` to the bare zero `Mid` — which `Create` builds
non-addressable, so the recursive `Inject` into it assigns nothing — and
`T` is left a nil pointer. -/
theorem inject_byvalue_aggregate_subfield_left_nil :
    inject 10 ⟨[], [], 0⟩
        (.ptrV outerC4
          (some (.structV false "Outer" outerFsC4 (zeroFields outerFsC4))))
      = (none,
         .ptrV outerC4 (some (.structV true "Outer" outerFsC4
           [.structV false "Mid" midFsC4 [.ptrV leafC4 none]])),
         ⟨[], [], 0⟩)
    ∧ isNil (.ptrV leafC4 none) = true := by
  constructor
  · simp [inject, injectFields, resolve, registryFind, RegMap.load, create,
      zeroValue, zeroFields, Value.ty, isPointerToStruct, isStruct,
      DinoErr.is, DinoErr.wrap, DinoErr.ofBase, outerC4, outerFsC4, midC4,
      midFsC4, leafC4, kindName]
  · rfl

/-- **C4 (amended)**: an exported field of *reference-to-aggregate* type
with no binding is set to a non-null freshly allocated default whose
pointee is recursively injected (its sub-fields are the result of running
the field loop, addressably, over the pointee's zero fields — so nested
unregistered reference-to-aggregate fields become non-null in turn, the
recursion bottoming out at scalar/leaf fields left at zero).  A field of
*by-value* aggregate type is instead set to the bare zero value of its
type with every sub-field left at zero: the created aggregate is not
addressable, so the recursive injection into it assigns nothing. -/
theorem inject_default_closure_through_references
    (u : Nat) (s s1 s2 s3 : Inj) (fname ftag n2 : String)
    (fs2 frest : Fields) (v : Value) (vrest subvals vrest' : List Value)
    (r3 : Option DinoErr) (e : DinoErr)
    (hres : resolve (u + 1) s ⟨ftag, some (.ptr (.strct n2 fs2))⟩
      = (.error e, s1))
    (hnf : e.is .valueNotFound = true)
    (hsub : injectFields u s1 fs2 (zeroFields fs2) true = (none, subvals, s2))
    (hcont : injectFields (u + 2) s2 frest vrest true = (r3, vrest', s3)) :
    (injectFields (u + 2) s
        (.cons fname ftag true (.ptr (.strct n2 fs2)) frest) (v :: vrest) true
      = (r3, .ptrV (.strct n2 fs2) (some (.structV true n2 fs2 subvals))
          :: vrest', s3))
    ∧ isNil (.ptrV (.strct n2 fs2) (some (.structV true n2 fs2 subvals)))
        = false
    ∧ (∀ (p : Nat) (sb sb1 s4 : Inj) (e2 : DinoErr) (frest2 : Fields)
        (v2 : Value) (vrest2 vrest2' : List Value) (r4 : Option DinoErr),
      resolve (p + 2) sb ⟨ftag, some (.strct n2 fs2)⟩ = (.error e2, sb1) →
      e2.is .valueNotFound = true →
      injectFields (p + 3) sb1 frest2 vrest2 true = (r4, vrest2', s4) →
      injectFields (p + 3) sb
          (.cons fname ftag true (.strct n2 fs2) frest2) (v2 :: vrest2) true
        = (r4, .structV false n2 fs2 (zeroFields fs2) :: vrest2', s4)) := by
  refine ⟨?_, rfl, ?_⟩
  · have hinj : inject (u + 1) s1 (create (.ptr (.strct n2 fs2)))
        = (none, .ptrV (.strct n2 fs2) (some (.structV true n2 fs2 subvals)),
           s2) := by
      simp only [create, zeroValue, inject, Value.ty, isPointerToStruct,
        isStruct, hsub]
      simp
    simp only [injectFields, hres, hnf, hinj, hcont]
    simp
  · intro p sb sb1 s4 e2 frest2 v2 vrest2 vrest2' r4 hres2 hnf2 hcont2
    have hinj2 : inject (p + 2) sb1 (create (.strct n2 fs2))
        = (none, .structV false n2 fs2 (zeroFields fs2), sb1) := by
      simp only [create, zeroValue, inject, Value.ty, isPointerToStruct,
        isStruct]
      simp [injectFields_unaddressable fs2 p sb1 (zeroFields fs2)]
    simp only [injectFields, hres2, hnf2, hinj2, hcont2]
    simp

/-- Witness for the amended C4: with an empty registry, an unregistered
`*Leaf` field is set to a freshly allocated non-nil `Leaf` whose scalar
field is zero. -/
theorem inject_default_closure_through_references_witness :
    injectFields 4 ⟨[], [], 0⟩
        (.cons "T" "" true (.ptr leafC4) .nil) [.ptrV leafC4 none] true
      = (none,
         [.ptrV leafC4 (some (.structV true "Leaf"
            (.cons "V" "" true (.scalar "int") .nil) [.scalarV "int" 0]))],
         ⟨[], [], 0⟩)
    ∧ isNil (.ptrV leafC4 (some (.structV true "Leaf"
        (.cons "V" "" true (.scalar "int") .nil) [.scalarV "int" 0])))
        = false := by
  have h := inject_default_closure_through_references 2
    ⟨[], [], 0⟩ ⟨[], [], 0⟩ ⟨[], [], 0⟩ ⟨[], [], 0⟩
    "T" "" "Leaf" (.cons "V" "" true (.scalar "int") .nil) .nil
    (.ptrV leafC4 none) [] [.scalarV "int" 0] [] none
    ⟨.valueNotFound, [.resolveKey (some (.ptr leafC4)) ""]⟩
    (by simp [resolve, registryFind, RegMap.load, DinoErr.wrap,
      DinoErr.ofBase, leafC4])
    rfl
    (by simp [injectFields, zeroFields, zeroValue, resolve, registryFind,
      RegMap.load, create, inject, Value.ty, isPointerToStruct, isStruct,
      DinoErr.is, DinoErr.wrap, DinoErr.ofBase, kindName])
    (by simp [injectFields])
  exact ⟨by simpa [leafC4] using h.1, h.2.1⟩

/-- Concatenation of parameter type lists. -/
def Tys.append : Tys → Tys → Tys
  | .nil, ys => ys
  | .cons t rest, ys => .cons t (Tys.append rest ys)

/-- Whether a type descriptor is of scalar kind. -/
def Ty.isScalarTy : Ty → Bool
  | .scalar _ => true
  | _ => false

/-- Every type in the list is a scalar with no binding under the empty tag
in the given store: resolving such a parameter misses, and its created
default is not an aggregate, so argument preparation passes over it
without changing the injector state. -/
def scalarsUnbound (m : RegMap) : Tys → Bool
  | .nil => true
  | .cons t rest =>
    t.isScalarTy && (RegMap.load m ⟨"", some t⟩).isNone && scalarsUnbound m rest

/-- Argument preparation over a prefix of unbound scalar parameters leaves
the state unchanged and propagates the failure of the remaining
parameters. -/
theorem prepareArgs_scalar_prefix_error (ts : Tys) :
    ∀ (g : Nat) (s s' : Inj) (rest : Tys) (e : DinoErr),
    scalarsUnbound s.reg ts = true →
    prepareArgs (g + 2) s rest = (.error e, s') →
    prepareArgs (g + 2) s (Tys.append ts rest) = (.error e, s') := by
  match ts with
  | .nil =>
    intro g s s' rest e _ h2
    simpa [Tys.append] using h2
  | .cons t ts2 =>
    intro g s s' rest e h1 h2
    simp only [scalarsUnbound, Bool.and_eq_true] at h1
    obtain ⟨⟨hsc, hload⟩, hrest⟩ := h1
    cases t with
    | scalar nm =>
      have hres : resolve (g + 1) s ⟨"", some (.scalar nm)⟩
          = (.error ⟨.valueNotFound, [.resolveKey (some (.scalar nm)) ""]⟩,
             s) := by
        simp only [resolve, registryFind]
        rw [show RegMap.load s.reg ⟨"", some (.scalar nm)⟩ = none from by
          simpa using hload]
        simp [DinoErr.wrap, DinoErr.ofBase]
      have hinj : inject (g + 1) s (create (.scalar nm))
          = (some ⟨.expectedStruct, [.kindGot (kindName (.scalar nm))]⟩,
             .scalarV nm 0, s) := by
        simp [create, zeroValue, inject, Value.ty, isPointerToStruct,
          isStruct]
      have hrec := prepareArgs_scalar_prefix_error ts2 g s s' rest e hrest h2
      simp only [Tys.append, prepareArgs, hres, hinj, hrec]
      simp [DinoErr.is]
    | strct a b => simp [Ty.isScalarTy] at hsc
    | ptr a => simp [Ty.isScalarTy] at hsc
    | slice a => simp [Ty.isScalarTy] at hsc
    | mp a b => simp [Ty.isScalarTy] at hsc
    | chan a => simp [Ty.isScalarTy] at hsc
    | func a b => simp [Ty.isScalarTy] at hsc
    | err => simp [Ty.isScalarTy] at hsc

/-- One direction of the mutual-cycle scenario: with a provider for `A`
whose parameters are unbound scalars followed by `B` (then anything), and
a provider for `B` whose parameters are unbound scalars followed by `A`
(then anything), both under the empty tag, resolving `A` re-enters the
in-flight key `A` and fails with `CircularDependency` reporting `A` and
the empty tag, with the in-flight set fully unwound. -/
theorem resolve_cycle_direction
    (n c0 : Nat) (reg : RegMap) (A B : Ty)
    (preA postA preB postB outsA outsB : Tys)
    (bodyA bodyB : Option FuncBody)
    (hAB : A ≠ B)
    (hfindA : registryFind reg ⟨"", some A⟩
      = .ok (.funcV (Tys.append preA (.cons B postA)) outsA bodyA))
    (hfindB : registryFind reg ⟨"", some B⟩
      = .ok (.funcV (Tys.append preB (.cons A postB)) outsB bodyB))
    (hfA : Ty.func (Tys.append preA (.cons B postA)) outsA ≠ A)
    (hfB : Ty.func (Tys.append preB (.cons A postB)) outsB ≠ B)
    (hpreA : scalarsUnbound reg preA = true)
    (hpreB : scalarsUnbound reg preB = true) :
    resolve (n + 7) ⟨reg, [], c0⟩ ⟨"", some A⟩
      = (.error ⟨.circularDependency,
          [.prepareFactoryArgs (some A) "", .resolveArgument B,
           .prepareFactoryArgs (some B) "", .resolveArgument A,
           .circularAt (some A) ""]⟩,
         ⟨reg, [], c0⟩) := by
  have hkAB : (⟨"", some A⟩ : RegistryKey) ≠ ⟨"", some B⟩ := by
    intro hc
    exact hAB (Option.some.inj (congrArg RegistryKey.ty hc))
  have hkBA : (⟨"", some B⟩ : RegistryKey) ≠ ⟨"", some A⟩ := Ne.symm hkAB
  -- innermost re-entry of A
  have hinner : resolve (n + 1) ⟨reg, [⟨"", some B⟩, ⟨"", some A⟩], c0⟩
      ⟨"", some A⟩
      = (.error ⟨.circularDependency, [.circularAt (some A) ""]⟩,
         ⟨reg, [⟨"", some B⟩, ⟨"", some A⟩], c0⟩) := by
    simp only [resolve, hfindA]
    rw [if_pos (by simp)]
  -- the A-parameter of B's provider aborts its argument list
  have hargsB : prepareArgs (n + 2) ⟨reg, [⟨"", some B⟩, ⟨"", some A⟩], c0⟩
      (Tys.append preB (.cons A postB))
      = (.error ⟨.circularDependency,
          [.resolveArgument A, .circularAt (some A) ""]⟩,
         ⟨reg, [⟨"", some B⟩, ⟨"", some A⟩], c0⟩) := by
    apply prepareArgs_scalar_prefix_error preB n _ _ (.cons A postB) _ hpreB
    simp only [prepareArgs, hinner]
    simp [DinoErr.is, DinoErr.wrap]
  -- resolving B from under an in-flight A
  have hresB : resolve (n + 4) ⟨reg, [⟨"", some A⟩], c0⟩ ⟨"", some B⟩
      = (.error ⟨.circularDependency,
          [.prepareFactoryArgs (some B) "", .resolveArgument A,
           .circularAt (some A) ""]⟩,
         ⟨reg, [⟨"", some A⟩], c0⟩) := by
    have h41 : n + 4 = (n + 3) + 1 := rfl
    rw [h41]
    simp only [resolve, hfindB]
    rw [if_neg (by simp [hkBA])]
    rw [if_pos ⟨by simp [Value.ty, isFunction],
      fun hc => hfB (Option.some.inj hc)⟩]
    have h32 : n + 3 = (n + 2) + 1 := rfl
    rw [h32]
    simp only [Value.ty, prepare, hargsB]
    simp [DinoErr.wrap, List.erase_cons_head]
  -- the B-parameter of A's provider aborts its argument list
  have hargsA : prepareArgs (n + 5) ⟨reg, [⟨"", some A⟩], c0⟩
      (Tys.append preA (.cons B postA))
      = (.error ⟨.circularDependency,
          [.resolveArgument B, .prepareFactoryArgs (some B) "",
           .resolveArgument A, .circularAt (some A) ""]⟩,
         ⟨reg, [⟨"", some A⟩], c0⟩) := by
    apply prepareArgs_scalar_prefix_error preA (n + 3) _ _ (.cons B postA)
      _ hpreA
    simp only [prepareArgs, hresB]
    simp [DinoErr.is, DinoErr.wrap]
  -- the top-level resolution of A
  have h71 : n + 7 = (n + 6) + 1 := rfl
  rw [h71]
  simp only [resolve, hfindA]
  rw [if_neg (List.not_mem_nil _)]
  rw [if_pos ⟨by simp [Value.ty, isFunction],
    fun hc => hfA (Option.some.inj hc)⟩]
  have h65 : n + 6 = (n + 5) + 1 := rfl
  rw [h65]
  simp only [Value.ty, prepare, hargsA]
  simp [DinoErr.wrap, List.erase_cons_head]

/-- **C2**: for mutually dependent providers — one bound for `A` under the
empty tag whose parameter list contains `B` (after benign unbound scalar
co-parameters), one bound for `B` whose parameter list contains `A`
likewise — resolving either key terminates with a `CircularDependency`
error whose innermost context reports the re-entered key's type and (empty)
tag, never recursing forever: the result is the same for every
sufficiently large recursion budget, the provider is never invoked, and
the in-flight set is fully unwound. -/
theorem resolve_mutual_cycle_detected
    (n c0 : Nat) (reg : RegMap) (A B : Ty)
    (preA postA preB postB outsA outsB : Tys)
    (bodyA bodyB : Option FuncBody)
    (hAB : A ≠ B)
    (hfindA : registryFind reg ⟨"", some A⟩
      = .ok (.funcV (Tys.append preA (.cons B postA)) outsA bodyA))
    (hfindB : registryFind reg ⟨"", some B⟩
      = .ok (.funcV (Tys.append preB (.cons A postB)) outsB bodyB))
    (hfA : Ty.func (Tys.append preA (.cons B postA)) outsA ≠ A)
    (hfB : Ty.func (Tys.append preB (.cons A postB)) outsB ≠ B)
    (hpreA : scalarsUnbound reg preA = true)
    (hpreB : scalarsUnbound reg preB = true) :
    resolve (n + 7) ⟨reg, [], c0⟩ ⟨"", some A⟩
      = (.error ⟨.circularDependency,
          [.prepareFactoryArgs (some A) "", .resolveArgument B,
           .prepareFactoryArgs (some B) "", .resolveArgument A,
           .circularAt (some A) ""]⟩,
         ⟨reg, [], c0⟩)
    ∧ resolve (n + 7) ⟨reg, [], c0⟩ ⟨"", some B⟩
      = (.error ⟨.circularDependency,
          [.prepareFactoryArgs (some B) "", .resolveArgument A,
           .prepareFactoryArgs (some A) "", .resolveArgument B,
           .circularAt (some B) ""]⟩,
         ⟨reg, [], c0⟩) :=
  ⟨resolve_cycle_direction n c0 reg A B preA postA preB postB outsA outsB
      bodyA bodyB hAB hfindA hfindB hfA hfB hpreA hpreB,
   resolve_cycle_direction n c0 reg B A preB postB preA postA outsB outsA
      bodyB bodyA (Ne.symm hAB) hfindB hfindA hfB hfA hpreB hpreA⟩

/-- Witness for C2: two concrete mutually dependent providers under the
empty tag; resolving either key yields `CircularDependency`. -/
theorem resolve_mutual_cycle_detected_witness :
    resolve 7
        ⟨[(⟨"", some (.scalar "A")⟩,
           .funcV (.cons (.scalar "B") .nil) (.cons (.scalar "A") .nil)
             (some (.consts [.scalarV "A" 1]))),
          (⟨"", some (.scalar "B")⟩,
           .funcV (.cons (.scalar "A") .nil) (.cons (.scalar "B") .nil)
             (some (.consts [.scalarV "B" 2])))],
         [], 0⟩
        ⟨"", some (.scalar "A")⟩
      = (.error ⟨.circularDependency,
          [.prepareFactoryArgs (some (.scalar "A")) "",
           .resolveArgument (.scalar "B"),
           .prepareFactoryArgs (some (.scalar "B")) "",
           .resolveArgument (.scalar "A"),
           .circularAt (some (.scalar "A")) ""]⟩,
         ⟨[(⟨"", some (.scalar "A")⟩,
            .funcV (.cons (.scalar "B") .nil) (.cons (.scalar "A") .nil)
              (some (.consts [.scalarV "A" 1]))),
           (⟨"", some (.scalar "B")⟩,
            .funcV (.cons (.scalar "A") .nil) (.cons (.scalar "B") .nil)
              (some (.consts [.scalarV "B" 2])))],
          [], 0⟩)
    ∧ resolve 7
        ⟨[(⟨"", some (.scalar "A")⟩,
           .funcV (.cons (.scalar "B") .nil) (.cons (.scalar "A") .nil)
             (some (.consts [.scalarV "A" 1]))),
          (⟨"", some (.scalar "B")⟩,
           .funcV (.cons (.scalar "A") .nil) (.cons (.scalar "B") .nil)
             (some (.consts [.scalarV "B" 2])))],
         [], 0⟩
        ⟨"", some (.scalar "B")⟩
      = (.error ⟨.circularDependency,
          [.prepareFactoryArgs (some (.scalar "B")) "",
           .resolveArgument (.scalar "A"),
           .prepareFactoryArgs (some (.scalar "A")) "",
           .resolveArgument (.scalar "B"),
           .circularAt (some (.scalar "B")) ""]⟩,
         ⟨[(⟨"", some (.scalar "A")⟩,
            .funcV (.cons (.scalar "B") .nil) (.cons (.scalar "A") .nil)
              (some (.consts [.scalarV "A" 1]))),
           (⟨"", some (.scalar "B")⟩,
            .funcV (.cons (.scalar "A") .nil) (.cons (.scalar "B") .nil)
              (some (.consts [.scalarV "B" 2])))],
          [], 0⟩) :=
  resolve_mutual_cycle_detected 0 0
    [(⟨"", some (.scalar "A")⟩,
      .funcV (.cons (.scalar "B") .nil) (.cons (.scalar "A") .nil)
        (some (.consts [.scalarV "A" 1]))),
     (⟨"", some (.scalar "B")⟩,
      .funcV (.cons (.scalar "A") .nil) (.cons (.scalar "B") .nil)
        (some (.consts [.scalarV "B" 2])))]
    (.scalar "A") (.scalar "B") .nil .nil .nil .nil
    (.cons (.scalar "A") .nil) (.cons (.scalar "B") .nil)
    (some (.consts [.scalarV "A" 1])) (some (.consts [.scalarV "B" 2]))
    (by decide)
    (by simp [registryFind, RegMap.load, Tys.append])
    (by simp [registryFind, RegMap.load, Tys.append])
    (by decide) (by decide) rfl rfl

/-- **C2 counterexample**: the claim quantifies over providers whose
parameter lists merely *contain* the mutual type.  With a provider for `A`
whose parameters are `(C, B)`, a provider for `B` with parameter `A`, and
`C` bound to a provider that returns an error, resolving `A` terminates
with the wrapped provider error for `C` — not `CircularDependency`. -/
theorem resolve_mutual_cycle_not_always_circular :
    resolve 8
        ⟨[(⟨"", some (.scalar "A")⟩,
           .funcV (.cons (.scalar "C") (.cons (.scalar "B") .nil))
             (.cons (.scalar "A") .nil) (some (.consts [.scalarV "A" 1]))),
          (⟨"", some (.scalar "B")⟩,
           .funcV (.cons (.scalar "A") .nil) (.cons (.scalar "B") .nil)
             (some (.consts [.scalarV "B" 2]))),
          (⟨"", some (.scalar "C")⟩,
           .funcV .nil .nil (some (.consts [.errV (some "boom")])))],
         [], 0⟩
        ⟨"", some (.scalar "A")⟩
      = (.error ⟨.userError "boom",
          [.prepareFactoryArgs (some (.scalar "A")) "",
           .resolveArgument (.scalar "C"),
           .factoryReturnedError (some (.scalar "C")) ""]⟩,
         ⟨[(⟨"", some (.scalar "A")⟩,
            .funcV (.cons (.scalar "C") (.cons (.scalar "B") .nil))
              (.cons (.scalar "A") .nil) (some (.consts [.scalarV "A" 1]))),
           (⟨"", some (.scalar "B")⟩,
            .funcV (.cons (.scalar "A") .nil) (.cons (.scalar "B") .nil)
              (some (.consts [.scalarV "B" 2]))),
           (⟨"", some (.scalar "C")⟩,
            .funcV .nil .nil (some (.consts [.errV (some "boom")])))],
          [], 1⟩)
    ∧ (⟨.userError "boom",
        [.prepareFactoryArgs (some (.scalar "A")) "",
         .resolveArgument (.scalar "C"),
         .factoryReturnedError (some (.scalar "C")) ""]⟩ : DinoErr).is
        .circularDependency = false := by
  constructor
  · simp [resolve, prepare, prepareArgs, registryFind, RegMap.load, Value.ty,
      isFunction, callValue, callFunc, processOutputs, asError, isNil,
      zeroOfKey, zeroValue, bind, bindLoop, registryRegister, DinoErr.is,
      DinoErr.wrap, DinoErr.ofBase, List.erase_cons_head]
  · rfl

end Dino
